import Mathlib

/-!
Verification of the fetch-parse-dedupe-persist pipeline of the Family Office
News Tracker (`app.py`).

Modelling conventions:
* An instant is an `Int`, counting microseconds since the Unix epoch.  The
  program stores `published` as the ISO-8601 serialization of a UTC-aware
  `datetime`; for the serializations this program writes (fixed `+00:00`
  offset, fractional seconds present exactly when nonzero) lexicographic
  order on the stored text agrees with the order of instants, so the SQL
  comparisons `published >= ?` and `ORDER BY published DESC` are modelled
  directly on instants.
* A Python `datetime` is a `PyDatetime`: an instant plus its `tzinfo`
  (`none` models a naive datetime).
* The module-level constant `NEWS_CUTOFF_DATE = datetime.now(timezone.utc)
  - timedelta(days=60)` is evaluated once per script execution, so every
  function that reads it takes the execution's start instant `scriptStart`
  as a parameter.  Subsequent wall-clock reads (`datetime.now` in the
  timestamp normalizer's last fallback) are modelled by a `clock : Nat → Int`
  stream consumed one tick per normalizer call.
* External collaborators are parameters: the feed provider is a function
  from the queried entity name to a parsed `Feed` (the URL built from
  `quote_plus` of the name is a fixed injective encoding, so keying by the
  name loses nothing), and the free-text parser `pd.to_datetime` is a
  function `String → Option Int` (`none` models a raised parse error).
* The SQLite table is a `List Article` in insertion order; the UNIQUE
  constraint on `link` makes insertion of a known link an `IntegrityError`,
  which `save_article` swallows.
-/

/-- Timezone attached to a `datetime`; the program only ever uses
`timezone.utc`. -/
inductive Tz
  | utc
deriving DecidableEq, Repr

/-- Model of a Python `datetime`: an absolute instant in microseconds since
the Unix epoch together with its `tzinfo` (`none` = naive). -/
structure PyDatetime where
  stamp : Int
  tzinfo : Option Tz
deriving DecidableEq, Repr

/-- Microseconds in one second. -/
def usPerSecond : Int := 1000000

/-- Microseconds in one day. -/
def usPerDay : Int := 86400 * usPerSecond

/-- Line 24: `NEWS_CUTOFF_DATE = datetime.now(timezone.utc) -
timedelta(days=60)`, as the instant it denotes.  `scriptStart` is the value
`datetime.now` returned when the script execution began. -/
def NEWS_CUTOFF_DATE (scriptStart : Int) : Int := scriptStart - 60 * usPerDay

/-- The first six fields of a feedparser `struct_time` (year, month, day,
hour, minute, second), exactly the tuple slice `entry[key][:6]` that is
splatted into the `datetime` constructor. -/
structure TimeStruct where
  year : Int
  month : Int
  day : Int
  hour : Int
  minute : Int
  second : Int
deriving DecidableEq, Repr

/-- Gregorian leap-year rule, as used by `datetime`. -/
def isLeapYear (y : Int) : Bool := (y % 4 == 0 && y % 100 != 0) || y % 400 == 0

/-- Number of days in the given month of the given year. -/
def daysInMonth (y m : Int) : Int :=
  if m = 2 then (if isLeapYear y then 29 else 28)
  else if m = 4 ∨ m = 6 ∨ m = 9 ∨ m = 11 then 30
  else 31

/-- The argument validation performed by the `datetime` constructor
(`MINYEAR = 1`, `MAXYEAR = 9999`); invalid fields raise `ValueError`. -/
def datetime_valid (t : TimeStruct) : Bool :=
  decide (1 ≤ t.year ∧ t.year ≤ 9999 ∧ 1 ≤ t.month ∧ t.month ≤ 12 ∧
    1 ≤ t.day ∧ t.day ≤ daysInMonth t.year t.month ∧
    0 ≤ t.hour ∧ t.hour ≤ 23 ∧ 0 ≤ t.minute ∧ t.minute ≤ 59 ∧
    0 ≤ t.second ∧ t.second ≤ 59)

/-- Days from 1970-01-01 to the Gregorian civil date `y-m-d` (the standard
civil-from-days inversion; only called on validated dates, whose fields are
nonnegative, so `Nat` arithmetic suffices below the final shift). -/
def days_from_civil (y m d : Nat) : Int :=
  let y2 := if m ≤ 2 then y - 1 else y
  let era := y2 / 400
  let yoe := y2 - era * 400
  let mp := (m + 9) % 12
  let doy := (153 * mp + 2) / 5 + (d - 1)
  let doe := yoe * 365 + yoe / 4 - yoe / 100 + doy
  (era : Int) * 146097 + (doe : Int) - 719468

/-- Line 75: `datetime(*entry[key][:6], tzinfo=timezone.utc)` — builds a
UTC-aware instant from a structured time breakdown, or `none` when the
constructor would raise. -/
def datetimeUTC (t : TimeStruct) : Option PyDatetime :=
  if datetime_valid t then
    some ⟨days_from_civil t.year.toNat t.month.toNat t.day.toNat * usPerDay
      + (t.hour * 3600 + t.minute * 60 + t.second) * usPerSecond, some Tz.utc⟩
  else none

/-- Python's `str.strip()` with no argument: remove leading and trailing
whitespace. -/
def pyStrip (s : String) : String :=
  ⟨((s.data.dropWhile Char.isWhitespace).reverse.dropWhile
      Char.isWhitespace).reverse⟩

/-- A feed entry as exposed by feedparser: every field may be absent. -/
structure Entry where
  title : Option String := none
  link : Option String := none
  published_parsed : Option TimeStruct := none
  updated_parsed : Option TimeStruct := none
  published : Option String := none
deriving DecidableEq, Repr

/-- Lines 71-83, `parse_entry_published`: ordered fallback returning a
timestamp for any entry.  `pd` models `pd.to_datetime(s, utc=True)` on
free text (`none` = the parse raised); `now` is the value `datetime.now`
would return at this call.  Note `entry.get(key)` is a truthiness test: an
absent structured field, like one the `datetime` constructor rejects, falls
through to the next step, and an empty free-text `published` string is falsy
and skipped. -/
def parse_entry_published (pd : String → Option Int) (now : Int)
    (entry : Entry) : PyDatetime :=
  match entry.published_parsed.bind datetimeUTC with
  | some d => d
  | none =>
    match entry.updated_parsed.bind datetimeUTC with
    | some d => d
    | none =>
      match entry.published with
      | none => ⟨now, some Tz.utc⟩
      | some s =>
        if s = "" then ⟨now, some Tz.utc⟩
        else
          match pd s with
          | some v => ⟨v, some Tz.utc⟩
          | none => ⟨now, some Tz.utc⟩

/-- A row of the `news` table (`id INTEGER PRIMARY KEY` is omitted; the
`published` TEXT column holds the ISO serialization of the instant, modelled
by the `PyDatetime` it serializes — see the header note on order). -/
structure Article where
  family_office : String
  title : String
  link : String
  published : PyDatetime
  source : String
deriving DecidableEq, Repr

/-- Lines 43-53, `save_article`: `INSERT` against the UNIQUE constraint on
`link`; `sqlite3.IntegrityError` on a duplicate link is swallowed
(`pass  # skip duplicates`), leaving the table unchanged. -/
def save_article (db : List Article) (a : Article) : List Article :=
  if db.any (fun r => r.link == a.link) then db else db ++ [a]

/-- Lines 55-59, `clear_all_news`: `DELETE FROM news`. -/
def clear_all_news (_db : List Article) : List Article := []

/-- Recency order on rows: `newerEq a b` means `a` was published at or after
`b`, the order in which `ORDER BY published DESC` emits rows. -/
def newerEq (a b : Article) : Prop := b.published.stamp ≤ a.published.stamp

instance : DecidableRel newerEq :=
  fun a b => Int.decLe b.published.stamp a.published.stamp

instance : IsTotal Article newerEq :=
  ⟨fun a b => le_total b.published.stamp a.published.stamp⟩

instance : IsTrans Article newerEq :=
  ⟨fun _ _ _ hab hbc => le_trans hbc hab⟩

/-- Lines 61-68, `fetch_all_news`: `SELECT * FROM news WHERE published >= ?
ORDER BY published DESC LIMIT ?`, parameterized by the module-level
`NEWS_CUTOFF_DATE` of the executing script run. -/
def fetch_all_news (scriptStart : Int) (db : List Article)
    (limit : Nat := 100) : List Article :=
  ((db.filter
      (fun a => decide (NEWS_CUTOFF_DATE scriptStart ≤ a.published.stamp))).insertionSort
    newerEq).take limit

/-- A parsed feed as returned by `feedparser.parse`: the `bozo`
malformed-response flag and the entry list. -/
structure Feed where
  bozo : Bool
  entries : List Entry

/-- The mutable state of a fetch run: the table, the accumulated `results`
list, and the number of wall-clock reads performed so far (each
`parse_entry_published` call reads the clock once, through its `now`
fallback). -/
structure FetchState where
  db : List Article
  results : List Article
  tick : Nat
deriving DecidableEq, Repr

/-- Lines 102-120, the body of the per-entry loop of `fetch_news_google`:
trim title and link (missing fields default to `""`), normalize the
timestamp, skip the entry when it is strictly older than the cutoff, else
serialize the timestamp
(`published_dt.astimezone(timezone.utc).replace(tzinfo=timezone.utc)` —
`published_dt` is always UTC-aware, for which `astimezone(timezone.utc)`
preserves the instant, and `replace` re-attaches `timezone.utc`), persist
and append to `results`. -/
def process_entry (pd : String → Option Int) (clock : Nat → Int)
    (scriptStart : Int) (fo : String) (st : FetchState)
    (entry : Entry) : FetchState :=
  let title := pyStrip (entry.title.getD "")
  let link := pyStrip (entry.link.getD "")
  let published_dt := parse_entry_published pd (clock st.tick) entry
  let st1 : FetchState := { st with tick := st.tick + 1 }
  if published_dt.stamp < NEWS_CUTOFF_DATE scriptStart then st1
  else
    let a : Article :=
      ⟨fo, title, link, ⟨published_dt.stamp, some Tz.utc⟩, "Google News"⟩
    { st1 with db := save_article st1.db a, results := st1.results ++ [a] }

/-- Lines 96-120, the per-entity body of `fetch_news_google`: query the
provider for the entity, skip the entity wholly when the parser set the
`bozo` flag, otherwise process the first `per_office` entries in
provider-given order. -/
def process_office (provider : String → Feed) (pd : String → Option Int)
    (clock : Nat → Int) (scriptStart : Int) (per_office : Nat)
    (st : FetchState) (fo : String) : FetchState :=
  let feed := provider fo
  if feed.bozo then st
  else (feed.entries.take per_office).foldl
    (process_entry pd clock scriptStart fo) st

/-- Lines 94-121, `fetch_news_google`: for each entity name in order, fetch,
normalize, filter and persist; returns the final table together with the
`results` list of this run. -/
def fetch_news_google (provider : String → Feed) (pd : String → Option Int)
    (clock : Nat → Int) (scriptStart : Int) (db : List Article)
    (family_offices : List String) (per_office : Nat := 20) : FetchState :=
  family_offices.foldl
    (process_office provider pd clock scriptStart per_office) ⟨db, [], 0⟩

/-- Modelled from the spec's words (§4.5 and claim C1), for comparison with
`fetch_all_news`: a read whose 60-day window start is recomputed from the
current instant `readTime` of the reading script execution. -/
def list_recent_read_spec (readTime : Int) (db : List Article)
    (limit : Nat) : List Article :=
  ((db.filter
      (fun a => decide (readTime - 60 * usPerDay ≤ a.published.stamp))).insertionSort
    newerEq).take limit

/-- Any row returned by `fetch_all_news` is a stored row lying at or after
the cutoff of the executing script run. -/
theorem mem_fetch_all_news {ss : Int} {db : List Article} {limit : Nat}
    {a : Article} (h : a ∈ fetch_all_news ss db limit) :
    a ∈ db ∧ NEWS_CUTOFF_DATE ss ≤ a.published.stamp := by
  unfold fetch_all_news at h
  have h1 := List.take_subset _ _ h
  rw [List.mem_insertionSort] at h1
  have h2 := List.mem_filter.mp h1
  exact ⟨h2.1, of_decide_eq_true h2.2⟩

/-- C1: every read performed by a script execution that began at instant
`ssRead` filters with the 60-day window start recomputed from that
execution's current instant (`ssRead - 60 days`), independently of the
instant `ssFetch` at which an earlier fetch run's execution evaluated its
cutoff (the display read, line 161, and the cutoff assignment, line 24, are
both re-executed on every script run); hence the window drifts forward
between a fetch and a later read: a record lying exactly on the fetch run's
cutoff is out of view at any strictly later read. -/
theorem read_window_recomputed_at_read_time (ssFetch ssRead : Int)
    (db : List Article) (limit : Nat) :
    fetch_all_news ssRead db limit = list_recent_read_spec ssRead db limit ∧
    (∀ a ∈ db, a.published.stamp = NEWS_CUTOFF_DATE ssFetch →
      ssFetch < ssRead → a ∉ fetch_all_news ssRead db limit) := by
  refine ⟨rfl, ?_⟩
  intro a _ ha hlt hmem
  have h2 := (mem_fetch_all_news hmem).2
  rw [ha] at h2
  simp only [NEWS_CUTOFF_DATE] at h2
  omega

theorem read_window_recomputed_at_read_time_witness :
    (⟨"f", "t", "l", ⟨-60 * usPerDay, some Tz.utc⟩, "s"⟩ : Article) ∉
      fetch_all_news usPerDay
        [⟨"f", "t", "l", ⟨-60 * usPerDay, some Tz.utc⟩, "s"⟩] 200 :=
  (read_window_recomputed_at_read_time 0 usPerDay _ 200).2 _
    (List.mem_singleton.mpr rfl) (by decide) (by decide)

/-- C2: saving a second record with an already-stored link succeeds as a
no-op: afterwards the store holds exactly one record for that link, the
first-inserted one with all its fields, and no error reaches the caller. -/
theorem save_duplicate_link_noop (db : List Article) (a b : Article)
    (hfresh : ∀ r ∈ db, r.link ≠ a.link) (hlink : b.link = a.link) :
    save_article (save_article db a) b = db ++ [a] ∧
    (save_article (save_article db a) b).filter
      (fun r => r.link == a.link) = [a] := by
  have h1 : db.any (fun r => r.link == a.link) = false := by
    rw [List.any_eq_false]
    intro r hr
    simpa using hfresh r hr
  have h2 : save_article db a = db ++ [a] := by
    simp [save_article, h1]
  have h3 : (db ++ [a]).any (fun r => r.link == b.link) = true := by
    rw [List.any_eq_true]
    exact ⟨a, by simp [hlink]⟩
  have h4 : save_article (save_article db a) b = db ++ [a] := by
    rw [h2]
    simp [save_article, h3]
  refine ⟨h4, ?_⟩
  rw [h4, List.filter_append]
  have h5 : db.filter (fun r => r.link == a.link) = [] := by
    rw [List.filter_eq_nil_iff]
    intro r hr
    simpa using hfresh r hr
  simp [h5]

theorem save_duplicate_link_noop_witness :
    save_article (save_article []
        ⟨"f", "first", "https://x/1", ⟨0, some Tz.utc⟩, "Google News"⟩)
        ⟨"f", "second", "https://x/1", ⟨0, some Tz.utc⟩, "Google News"⟩ =
      [⟨"f", "first", "https://x/1", ⟨0, some Tz.utc⟩, "Google News"⟩] ∧
    (save_article (save_article []
        ⟨"f", "first", "https://x/1", ⟨0, some Tz.utc⟩, "Google News"⟩)
        ⟨"f", "second", "https://x/1", ⟨0, some Tz.utc⟩, "Google News"⟩).filter
      (fun r => r.link ==
        (⟨"f", "first", "https://x/1", ⟨0, some Tz.utc⟩,
          "Google News"⟩ : Article).link) =
      [⟨"f", "first", "https://x/1", ⟨0, some Tz.utc⟩, "Google News"⟩] :=
  save_duplicate_link_noop [] _ _ (by simp) rfl

/-- A structured breakdown the `datetime` constructor accepts always yields
a UTC-aware value. -/
theorem datetimeUTC_tzinfo {t : TimeStruct} {d : PyDatetime}
    (h : datetimeUTC t = some d) : d.tzinfo = some Tz.utc := by
  unfold datetimeUTC at h
  split at h
  · injection h with h
    subst h
    rfl
  · cases h

/-- C3: the timestamp normalizer is total (it is a function — no branch can
raise) and returns a UTC-aware timestamp; it uses the structured published
breakdown when present and buildable, else the structured updated breakdown
when present and buildable, else a successful parse of a (nonempty)
free-text published string, else the current UTC instant, each failing step
being skipped in favour of the next. -/
theorem parse_entry_published_total_utc_chain (pd : String → Option Int)
    (now : Int) (e : Entry) :
    (parse_entry_published pd now e).tzinfo = some Tz.utc ∧
    (∀ d, e.published_parsed.bind datetimeUTC = some d →
      parse_entry_published pd now e = d) ∧
    (e.published_parsed.bind datetimeUTC = none →
      ∀ d, e.updated_parsed.bind datetimeUTC = some d →
        parse_entry_published pd now e = d) ∧
    (e.published_parsed.bind datetimeUTC = none →
      e.updated_parsed.bind datetimeUTC = none →
      ∀ s v, e.published = some s → ¬s = "" → pd s = some v →
        parse_entry_published pd now e = ⟨v, some Tz.utc⟩) ∧
    (e.published_parsed.bind datetimeUTC = none →
      e.updated_parsed.bind datetimeUTC = none →
      (∀ s, e.published = some s → s = "" ∨ pd s = none) →
        parse_entry_published pd now e = ⟨now, some Tz.utc⟩) := by
  refine ⟨?_, ?_, ?_, ?_, ?_⟩
  · rcases h1 : e.published_parsed.bind datetimeUTC with _ | d
    · rcases h2 : e.updated_parsed.bind datetimeUTC with _ | d
      · rcases h3 : e.published with _ | s
        · simp [parse_entry_published, h1, h2, h3]
        · by_cases h4 : s = ""
          · simp [parse_entry_published, h1, h2, h3, h4]
          · rcases h5 : pd s with _ | v <;>
              simp [parse_entry_published, h1, h2, h3, h4, h5]
      · obtain ⟨t, _, ht⟩ := Option.bind_eq_some.mp h2
        simpa [parse_entry_published, h1, h2] using datetimeUTC_tzinfo ht
    · obtain ⟨t, _, ht⟩ := Option.bind_eq_some.mp h1
      simpa [parse_entry_published, h1] using datetimeUTC_tzinfo ht
  · intro d hd
    simp [parse_entry_published, hd]
  · intro h1 d h2
    simp [parse_entry_published, h1, h2]
  · intro h1 h2 s v hs hne hv
    simp [parse_entry_published, h1, h2, hs, hne, hv]
  · intro h1 h2 h3
    rcases hp : e.published with _ | s
    · simp [parse_entry_published, h1, h2, hp]
    · rcases h3 s hp with he | hn
      · simp [parse_entry_published, h1, h2, hp, he]
      · by_cases he : s = ""
        · simp [parse_entry_published, h1, h2, hp, he]
        · simp [parse_entry_published, h1, h2, hp, he, hn]

theorem parse_entry_published_total_utc_chain_witness :
    parse_entry_published (fun _ => none) 0 {} = ⟨0, some Tz.utc⟩ :=
  (parse_entry_published_total_utc_chain (fun _ => none) 0 {}).2.2.2.2
    rfl rfl (fun _ hs => by cases hs)

/-- C4: an entity whose provider response carries the `bozo` malformed-feed
flag contributes nothing — no entries, no rows, no error — and the run
continues with the remaining entities: a run over `[A, B]` with `A`'s feed
malformed is, state for state, the run over `[B]` alone. -/
theorem bozo_entity_isolated (provider : String → Feed)
    (pd : String → Option Int) (clock : Nat → Int) (ss : Int)
    (db : List Article) (A B : String) (cap : Nat)
    (hA : (provider A).bozo = true) :
    fetch_news_google provider pd clock ss db [A, B] cap =
      fetch_news_google provider pd clock ss db [B] cap := by
  simp [fetch_news_google, process_office, hA]

theorem bozo_entity_isolated_witness :
    fetch_news_google
      (fun fo => if fo = "A" then ⟨true, []⟩ else
        ⟨false, [{ link := some "https://x/b", published := some "p" }]⟩)
      (fun _ => some 0) (fun _ => 0) 0 [] ["A", "B"] 20 =
    fetch_news_google
      (fun fo => if fo = "A" then ⟨true, []⟩ else
        ⟨false, [{ link := some "https://x/b", published := some "p" }]⟩)
      (fun _ => some 0) (fun _ => 0) 0 [] ["B"] 20 :=
  bozo_entity_isolated _ _ _ _ _ _ _ _ (by decide)

/-- C5: the 60-day cutoff is inclusive on both paths: an entry normalized to
exactly the write-run's cutoff instant is persisted and returned, and one a
single microsecond older is skipped, leaving the table untouched; a stored
record lying exactly on the reading run's cutoff is returned by the read
query (whenever the store fits in the LIMIT), and one a single microsecond
older is never returned. -/
theorem cutoff_boundary_inclusive_both_paths (ss : Int) :
    (∀ (provider : String → Feed) (pd : String → Option Int)
        (clock : Nat → Int) (db : List Article) (fo : String) (e : Entry),
      (provider fo).bozo = false → (provider fo).entries = [e] →
      parse_entry_published pd (clock 0) e =
        ⟨NEWS_CUTOFF_DATE ss, some Tz.utc⟩ →
      (fetch_news_google provider pd clock ss db [fo] 20).results =
        [⟨fo, pyStrip (e.title.getD ""), pyStrip (e.link.getD ""),
          ⟨NEWS_CUTOFF_DATE ss, some Tz.utc⟩, "Google News"⟩] ∧
      (fetch_news_google provider pd clock ss db [fo] 20).db =
        save_article db
          ⟨fo, pyStrip (e.title.getD ""), pyStrip (e.link.getD ""),
            ⟨NEWS_CUTOFF_DATE ss, some Tz.utc⟩, "Google News"⟩) ∧
    (∀ (provider : String → Feed) (pd : String → Option Int)
        (clock : Nat → Int) (db : List Article) (fo : String) (e : Entry),
      (provider fo).bozo = false → (provider fo).entries = [e] →
      (parse_entry_published pd (clock 0) e).stamp =
        NEWS_CUTOFF_DATE ss - 1 →
      (fetch_news_google provider pd clock ss db [fo] 20).results = [] ∧
      (fetch_news_google provider pd clock ss db [fo] 20).db = db) ∧
    (∀ (db : List Article) (limit : Nat) (a : Article), a ∈ db →
      a.published.stamp = NEWS_CUTOFF_DATE ss → db.length ≤ limit →
      a ∈ fetch_all_news ss db limit) ∧
    (∀ (db : List Article) (limit : Nat) (a : Article),
      a.published.stamp = NEWS_CUTOFF_DATE ss - 1 →
      a ∉ fetch_all_news ss db limit) := by
  refine ⟨?_, ?_, ?_, ?_⟩
  · intro provider pd clock db fo e hb he hp
    have ht : (List.take 20 [e] : List Entry) = [e] := rfl
    constructor <;>
      simp [fetch_news_google, process_office, hb, he, ht, process_entry, hp]
  · intro provider pd clock db fo e hb he hp
    have ht : (List.take 20 [e] : List Entry) = [e] := rfl
    have h5 : NEWS_CUTOFF_DATE ss - 1 < NEWS_CUTOFF_DATE ss := by omega
    constructor <;>
      simp [fetch_news_google, process_office, hb, he, ht, process_entry,
        hp, h5]
  · intro db limit a hmem hstamp hlen
    unfold fetch_all_news
    have hf : a ∈ db.filter
        (fun x => decide (NEWS_CUTOFF_DATE ss ≤ x.published.stamp)) :=
      List.mem_filter.mpr ⟨hmem, decide_eq_true (le_of_eq hstamp.symm)⟩
    rw [List.take_of_length_le]
    · rwa [List.mem_insertionSort]
    · rw [List.length_insertionSort]
      exact le_trans (List.length_filter_le _ _) hlen
  · intro db limit a hstamp hmem
    have h2 := (mem_fetch_all_news hmem).2
    rw [hstamp] at h2
    omega

theorem cutoff_boundary_inclusive_both_paths_witness :
    (fetch_news_google
        (fun _ =>
          ⟨false, [{ link := some "https://x/1", published := some "p" }]⟩)
        (fun _ => some (-(60 * usPerDay))) (fun _ => 0) 0 [] ["f"] 20).results =
      [⟨"f", "", "https://x/1", ⟨NEWS_CUTOFF_DATE 0, some Tz.utc⟩,
        "Google News"⟩] ∧
    (⟨"f", "t", "l", ⟨NEWS_CUTOFF_DATE 0 - 1, some Tz.utc⟩, "s"⟩ : Article) ∉
      fetch_all_news 0
        [⟨"f", "t", "l", ⟨NEWS_CUTOFF_DATE 0 - 1, some Tz.utc⟩, "s"⟩] 200 :=
  ⟨((cutoff_boundary_inclusive_both_paths 0).1 _ _ _ [] "f"
      { link := some "https://x/1", published := some "p" }
      rfl rfl (by decide)).1,
    (cutoff_boundary_inclusive_both_paths 0).2.2.2 _ 200 _ rfl⟩

/-- C8: for every store contents and limit, the read query returns only
records at or after the window start, sorted by `published_at` in
non-increasing order, and holds at most `limit` records. -/
theorem fetch_all_news_window_sorted_capped (ss : Int) (db : List Article)
    (limit : Nat) :
    (∀ a ∈ fetch_all_news ss db limit,
      NEWS_CUTOFF_DATE ss ≤ a.published.stamp) ∧
    List.Sorted newerEq (fetch_all_news ss db limit) ∧
    (fetch_all_news ss db limit).length ≤ limit := by
  refine ⟨fun a ha => (mem_fetch_all_news ha).2, ?_, ?_⟩
  · exact List.Pairwise.sublist (List.take_sublist _ _)
      (List.sorted_insertionSort newerEq _)
  · exact List.length_take_le _ _

theorem fetch_all_news_window_sorted_capped_witness :
    NEWS_CUTOFF_DATE 0 ≤
      (⟨"f", "t", "l", ⟨0, some Tz.utc⟩, "s"⟩ : Article).published.stamp :=
  (fetch_all_news_window_sorted_capped 0
      [⟨"f", "t", "l", ⟨0, some Tz.utc⟩, "s"⟩] 5).1 _ (by decide)

/-- A row is in the table after `save_article` only if it was already there
or is the row just offered. -/
theorem mem_save_article {db : List Article} {a b : Article}
    (h : b ∈ save_article db a) : b ∈ db ∨ b = a := by
  unfold save_article at h
  split at h
  · exact Or.inl h
  · rcases List.mem_append.mp h with h | h
    · exact Or.inl h
    · exact Or.inr (List.mem_singleton.mp h)

/-- Processing one entry changes `results` and `tick` in a way that does not
depend on the table component of the state. -/
theorem process_entry_congr (pd : String → Option Int) (clock : Nat → Int)
    (ss : Int) (fo : String) (st1 st2 : FetchState) (e : Entry)
    (hres : st1.results = st2.results) (htick : st1.tick = st2.tick) :
    (process_entry pd clock ss fo st1 e).results =
      (process_entry pd clock ss fo st2 e).results ∧
    (process_entry pd clock ss fo st1 e).tick =
      (process_entry pd clock ss fo st2 e).tick := by
  rcases st1 with ⟨db1, res1, t1⟩
  rcases st2 with ⟨db2, res2, t2⟩
  obtain rfl : res1 = res2 := hres
  obtain rfl : t1 = t2 := htick
  by_cases h :
      (parse_entry_published pd (clock t1) e).stamp < NEWS_CUTOFF_DATE ss <;>
    simp [process_entry, h]

/-- Folding the entry loop preserves the independence of `results` and
`tick` from the table component. -/
theorem foldl_entries_congr (pd : String → Option Int) (clock : Nat → Int)
    (ss : Int) (fo : String) :
    ∀ (es : List Entry) (st1 st2 : FetchState),
      st1.results = st2.results → st1.tick = st2.tick →
      (es.foldl (process_entry pd clock ss fo) st1).results =
        (es.foldl (process_entry pd clock ss fo) st2).results ∧
      (es.foldl (process_entry pd clock ss fo) st1).tick =
        (es.foldl (process_entry pd clock ss fo) st2).tick := by
  intro es
  induction es with
  | nil => intro st1 st2 h1 h2; exact ⟨h1, h2⟩
  | cons e es ih =>
    intro st1 st2 h1 h2
    simp only [List.foldl_cons]
    have hc := process_entry_congr pd clock ss fo st1 st2 e h1 h2
    exact ih _ _ hc.1 hc.2

/-- Processing one entity preserves the independence of `results` and `tick`
from the table component. -/
theorem process_office_congr (provider : String → Feed)
    (pd : String → Option Int) (clock : Nat → Int) (ss : Int) (cap : Nat)
    (st1 st2 : FetchState) (fo : String)
    (hres : st1.results = st2.results) (htick : st1.tick = st2.tick) :
    (process_office provider pd clock ss cap st1 fo).results =
      (process_office provider pd clock ss cap st2 fo).results ∧
    (process_office provider pd clock ss cap st1 fo).tick =
      (process_office provider pd clock ss cap st2 fo).tick := by
  by_cases hb : (provider fo).bozo = true
  · exact ⟨by simpa [process_office, hb] using hres,
      by simpa [process_office, hb] using htick⟩
  · simpa [process_office, hb] using
      foldl_entries_congr pd clock ss fo ((provider fo).entries.take cap)
        st1 st2 hres htick

/-- Folding the entity loop preserves the independence of `results` and
`tick` from the table component. -/
theorem foldl_offices_congr (provider : String → Feed)
    (pd : String → Option Int) (clock : Nat → Int) (ss : Int) (cap : Nat) :
    ∀ (fos : List String) (st1 st2 : FetchState),
      st1.results = st2.results → st1.tick = st2.tick →
      (fos.foldl (process_office provider pd clock ss cap) st1).results =
        (fos.foldl (process_office provider pd clock ss cap) st2).results ∧
      (fos.foldl (process_office provider pd clock ss cap) st1).tick =
        (fos.foldl (process_office provider pd clock ss cap) st2).tick := by
  intro fos
  induction fos with
  | nil => intro st1 st2 h1 h2; exact ⟨h1, h2⟩
  | cons fo fos ih =>
    intro st1 st2 h1 h2
    simp only [List.foldl_cons]
    have hc := process_office_congr provider pd clock ss cap st1 st2 fo h1 h2
    exact ih _ _ hc.1 hc.2

/-- Every row the entry loop appends to `results` lies at or after the
cutoff. -/
theorem foldl_entries_results_window (pd : String → Option Int)
    (clock : Nat → Int) (ss : Int) (fo : String) :
    ∀ (es : List Entry) (st : FetchState),
      (∀ a ∈ st.results, NEWS_CUTOFF_DATE ss ≤ a.published.stamp) →
      ∀ a ∈ (es.foldl (process_entry pd clock ss fo) st).results,
        NEWS_CUTOFF_DATE ss ≤ a.published.stamp := by
  intro es
  induction es with
  | nil => intro st h; exact h
  | cons e es ih =>
    intro st h
    simp only [List.foldl_cons]
    apply ih
    by_cases hc :
        (parse_entry_published pd (clock st.tick) e).stamp <
          NEWS_CUTOFF_DATE ss
    · simpa [process_entry, hc] using h
    · intro a ha
      simp only [process_entry, hc, if_false, if_neg] at ha
      rcases List.mem_append.mp ha with ha | ha
      · exact h a ha
      · rw [List.mem_singleton.mp ha]
        simpa using Int.not_lt.mp hc

/-- Every row the entity loop appends to `results` lies at or after the
cutoff. -/
theorem foldl_offices_results_window (provider : String → Feed)
    (pd : String → Option Int) (clock : Nat → Int) (ss : Int) (cap : Nat) :
    ∀ (fos : List String) (st : FetchState),
      (∀ a ∈ st.results, NEWS_CUTOFF_DATE ss ≤ a.published.stamp) →
      ∀ a ∈ (fos.foldl (process_office provider pd clock ss cap) st).results,
        NEWS_CUTOFF_DATE ss ≤ a.published.stamp := by
  intro fos
  induction fos with
  | nil => intro st h; exact h
  | cons fo fos ih =>
    intro st h
    simp only [List.foldl_cons]
    apply ih
    by_cases hb : (provider fo).bozo = true
    · simpa [process_office, hb] using h
    · simpa [process_office, hb] using
        foldl_entries_results_window pd clock ss fo
          ((provider fo).entries.take cap) st h

/-- The entry loop only ever inserts rows whose `published` field is
UTC-aware. -/
theorem foldl_entries_db_utc (pd : String → Option Int) (clock : Nat → Int)
    (ss : Int) (fo : String) :
    ∀ (es : List Entry) (st : FetchState),
      (∀ a ∈ st.db, a.published.tzinfo = some Tz.utc) →
      ∀ a ∈ (es.foldl (process_entry pd clock ss fo) st).db,
        a.published.tzinfo = some Tz.utc := by
  intro es
  induction es with
  | nil => intro st h; exact h
  | cons e es ih =>
    intro st h
    simp only [List.foldl_cons]
    apply ih
    by_cases hc :
        (parse_entry_published pd (clock st.tick) e).stamp <
          NEWS_CUTOFF_DATE ss
    · simpa [process_entry, hc] using h
    · intro a ha
      simp only [process_entry, hc, if_neg] at ha
      rcases mem_save_article ha with ha | ha
      · exact h a ha
      · rw [ha]

/-- The entity loop only ever inserts rows whose `published` field is
UTC-aware. -/
theorem foldl_offices_db_utc (provider : String → Feed)
    (pd : String → Option Int) (clock : Nat → Int) (ss : Int) (cap : Nat) :
    ∀ (fos : List String) (st : FetchState),
      (∀ a ∈ st.db, a.published.tzinfo = some Tz.utc) →
      ∀ a ∈ (fos.foldl (process_office provider pd clock ss cap) st).db,
        a.published.tzinfo = some Tz.utc := by
  intro fos
  induction fos with
  | nil => intro st h; exact h
  | cons fo fos ih =>
    intro st h
    simp only [List.foldl_cons]
    apply ih
    by_cases hb : (provider fo).bozo = true
    · simpa [process_office, hb] using h
    · simpa [process_office, hb] using
        foldl_entries_db_utc pd clock ss fo
          ((provider fo).entries.take cap) st h

/-- C6: the per-entity cap is applied before the cutoff filter: with a cap
of 2 and provider entries normalized to 5 days ago, 70 days ago and 10 days
ago, the first two entries are taken, the 70-day one is dropped by the
filter, and exactly one record — from the first entry — is persisted; the
third (in-window) entry is never considered. -/
theorem cap_applied_before_cutoff_filter (provider : String → Feed)
    (pd : String → Option Int) (clock : Nat → Int) (ss : Int)
    (db : List Article) (fo : String) (e1 e2 e3 : Entry)
    (hb : (provider fo).bozo = false)
    (he : (provider fo).entries = [e1, e2, e3])
    (h1 : (parse_entry_published pd (clock 0) e1).stamp = ss - 5 * usPerDay)
    (h2 : (parse_entry_published pd (clock 1) e2).stamp =
      ss - 70 * usPerDay) :
    (fetch_news_google provider pd clock ss db [fo] 2).results =
      [⟨fo, pyStrip (e1.title.getD ""), pyStrip (e1.link.getD ""),
        ⟨ss - 5 * usPerDay, some Tz.utc⟩, "Google News"⟩] ∧
    (fetch_news_google provider pd clock ss db [fo] 2).db =
      save_article db
        ⟨fo, pyStrip (e1.title.getD ""), pyStrip (e1.link.getD ""),
          ⟨ss - 5 * usPerDay, some Tz.utc⟩, "Google News"⟩ := by
  have ht : (List.take 2 [e1, e2, e3]) = [e1, e2] := rfl
  have hA : ¬(ss - 5 * usPerDay < NEWS_CUTOFF_DATE ss) := by
    simp only [NEWS_CUTOFF_DATE, usPerDay, usPerSecond]
    omega
  have hB : ss - 70 * usPerDay < NEWS_CUTOFF_DATE ss := by
    simp only [NEWS_CUTOFF_DATE, usPerDay, usPerSecond]
    omega
  constructor <;>
    simp [fetch_news_google, process_office, hb, he, ht, process_entry,
      h1, h2, hA, hB]

theorem cap_applied_before_cutoff_filter_witness :
    (fetch_news_google
      (fun _ => ⟨false, [{ link := some "https://x/1", published := some "a" },
        { published := some "b" }, { published := some "c" }]⟩)
      (fun s => if s = "a" then some (-(5 * usPerDay)) else
        if s = "b" then some (-(70 * usPerDay)) else some (-(10 * usPerDay)))
      (fun _ => 0) 0 [] ["f"] 2).results =
      [⟨"f", "", "https://x/1", ⟨0 - 5 * usPerDay, some Tz.utc⟩,
        "Google News"⟩] :=
  (cap_applied_before_cutoff_filter _ _ _ 0 [] "f"
    { link := some "https://x/1", published := some "a" }
    { published := some "b" } { published := some "c" }
    rfl rfl (by decide) (by decide)).1

/-- C7: the list a fetch run returns is exactly what passed the cutoff
filter during this run, in processing order: it does not depend on the
store's prior contents (entries whose save was a silent duplicate no-op are
still returned), and every returned entry lies at or after the cutoff. -/
theorem results_filter_only_not_store_deduped (provider : String → Feed)
    (pd : String → Option Int) (clock : Nat → Int) (ss : Int)
    (fos : List String) (cap : Nat) (db1 db2 : List Article) :
    (fetch_news_google provider pd clock ss db1 fos cap).results =
      (fetch_news_google provider pd clock ss db2 fos cap).results ∧
    ∀ a ∈ (fetch_news_google provider pd clock ss db1 fos cap).results,
      NEWS_CUTOFF_DATE ss ≤ a.published.stamp := by
  constructor
  · exact (foldl_offices_congr provider pd clock ss cap fos
      ⟨db1, [], 0⟩ ⟨db2, [], 0⟩ rfl rfl).1
  · exact foldl_offices_results_window provider pd clock ss cap fos
      ⟨db1, [], 0⟩ (by simp)

theorem results_filter_only_not_store_deduped_witness :
    (fetch_news_google
        (fun _ =>
          ⟨false, [{ link := some "https://x/1", published := some "a" }]⟩)
        (fun _ => some 0) (fun _ => 0) 0
        [⟨"f", "old title", "https://x/1", ⟨0, some Tz.utc⟩, "Google News"⟩]
        ["f"] 20).results =
      (fetch_news_google
        (fun _ =>
          ⟨false, [{ link := some "https://x/1", published := some "a" }]⟩)
        (fun _ => some 0) (fun _ => 0) 0 [] ["f"] 20).results ∧
    NEWS_CUTOFF_DATE 0 ≤
      (⟨"f", "", "https://x/1", ⟨0, some Tz.utc⟩,
        "Google News"⟩ : Article).published.stamp :=
  ⟨(results_filter_only_not_store_deduped _ _ _ 0 ["f"] 20
      [⟨"f", "old title", "https://x/1", ⟨0, some Tz.utc⟩, "Google News"⟩]
      []).1,
    (results_filter_only_not_store_deduped
      (fun _ =>
        ⟨false, [{ link := some "https://x/1", published := some "a" }]⟩)
      (fun _ => some 0) (fun _ => 0) 0 ["f"] 20
      [⟨"f", "old title", "https://x/1", ⟨0, some Tz.utc⟩, "Google News"⟩]
      []).2 _ (by decide)⟩

/-- C9: after a fetch run over a store whose rows are all UTC-aware, every
row of the resulting store is still a timezone-aware UTC instant, whichever
normalizer fallback produced it; in particular every row the run persisted
is. -/
theorem persisted_timestamps_utc_aware (provider : String → Feed)
    (pd : String → Option Int) (clock : Nat → Int) (ss : Int)
    (db : List Article) (fos : List String) (cap : Nat)
    (hdb : ∀ a ∈ db, a.published.tzinfo = some Tz.utc) :
    ∀ a ∈ (fetch_news_google provider pd clock ss db fos cap).db,
      a.published.tzinfo = some Tz.utc :=
  foldl_offices_db_utc provider pd clock ss cap fos ⟨db, [], 0⟩ hdb

theorem persisted_timestamps_utc_aware_witness :
    (⟨"f", "", "https://x/1", ⟨0, some Tz.utc⟩,
      "Google News"⟩ : Article).published.tzinfo = some Tz.utc :=
  persisted_timestamps_utc_aware
    (fun _ =>
      ⟨false, [{ link := some "https://x/1", published := some "a" }]⟩)
    (fun _ => some 0) (fun _ => 0) 0 [] ["f"] 20 (by simp) _ (by decide)

/-- C10: a fetch invoked without an explicit cap uses a per-entity cap of
20: the invocation elaborates to cap 20, and two providers that agree on
the `bozo` flag and on the first 20 entries of every entity produce
identical runs — entries beyond the twentieth are never considered. -/
theorem default_cap_is_twenty (provider provider2 : String → Feed)
    (pd : String → Option Int) (clock : Nat → Int) (ss : Int)
    (db : List Article) (fos : List String)
    (h : ∀ fo, (provider fo).bozo = (provider2 fo).bozo ∧
      (provider fo).entries.take 20 = (provider2 fo).entries.take 20) :
    fetch_news_google provider pd clock ss db fos =
      fetch_news_google provider2 pd clock ss db fos ∧
    fetch_news_google provider pd clock ss db fos =
      fetch_news_google provider pd clock ss db fos 20 := by
  refine ⟨?_, rfl⟩
  have hstep : ∀ st fo, process_office provider pd clock ss 20 st fo =
      process_office provider2 pd clock ss 20 st fo := by
    intro st fo
    simp only [process_office]
    rw [(h fo).1, (h fo).2]
  suffices hgen : ∀ (l : List String) (st : FetchState),
      l.foldl (process_office provider pd clock ss 20) st =
        l.foldl (process_office provider2 pd clock ss 20) st by
    exact hgen fos ⟨db, [], 0⟩
  intro l
  induction l with
  | nil => intro st; rfl
  | cons fo l ih =>
    intro st
    simp only [List.foldl_cons]
    rw [hstep st fo]
    exact ih _

theorem default_cap_is_twenty_witness :
    fetch_news_google (fun _ => ⟨false, List.replicate 21 {}⟩)
      (fun _ => some 0) (fun _ => 0) 0 [] ["f"] =
    fetch_news_google (fun _ => ⟨false, List.replicate 20 {}⟩)
      (fun _ => some 0) (fun _ => 0) 0 [] ["f"] :=
  (default_cap_is_twenty _ _ _ _ 0 [] ["f"]
    (fun _ => ⟨rfl, by decide⟩)).1
